import Mathlib

/-!
Verification of the CaptainManager orchestrator
(`src/src/user/system/CaptainManager.ts`) against its specification.

The TypeScript class is shallowly embedded: promise chains become
sequencing over `Except`, collaborator calls become explicit parameters
carrying their outcomes, effectful steps are recorded in explicit traces,
and process-wide mutable state is threaded as explicit state values.
-/

namespace CaptainManager

/-! ## Constants (lines 19-24 of the source) -/

def DEBUG_SALT : String := "THIS IS NOT A REAL CERTIFICATE"

def MAX_FAIL_ALLOWED : Nat := 4

def HEALTH_CHECK_INTERVAL : Nat := 20000

def TIMEOUT_HEALTH_CHECK : Nat := 15000

/-! ## Error model

`ApiStatusCodes.createError(status, message)` builds a typed API error;
plain `new Error(message)` / raw transport errors are `jsError`.
-/

inductive ApiStatus where
  | statusErrorGeneric
  | statusErrorNotAuthorized
  | verificationFailed
deriving DecidableEq, Repr

inductive CapError where
  | apiError (status : ApiStatus) (message : String)
  | jsError (message : String)
deriving DecidableEq, Repr

/-! ## Health monitor (`performHealthCheck`, lines 251-402)

A decided cycle has both outcome slots set (`checksPerformed.captainHealth`
and `checksPerformed.nginxHealth`).  `scheduleIfNecessary` (lines 347-387)
updates the consecutive-failure counter, schedules the next cycle, and
exits the process with status 1 once the counter exceeds `MAX_FAIL_ALLOWED`.
-/

structure HealthChecksPerformed where
  captainHealth : Bool
  nginxHealth : Bool
deriving DecidableEq, Repr

/-- The `hasFailedCheck` flag of lines 355-373: at least one probe failed. -/
def cycleHasFailure (c : HealthChecksPerformed) : Bool :=
  !c.captainHealth || !c.nginxHealth

/-- The counter update and exit decision of `scheduleIfNecessary`
(lines 375-386): returns the new consecutive-failure counter and
`some exitCode` when the process terminates. -/
def scheduleIfNecessary (count : Nat) (c : HealthChecksPerformed) :
    Nat × Option Nat :=
  let newCount := if cycleHasFailure c then count + 1 else 0
  (newCount, if MAX_FAIL_ALLOWED < newCount then some 1 else none)

/-- Run a sequence of decided cycles from a given counter value.  Returns
(number of cycles decided before the run stops, final counter, exit code
if the process terminated).  Once the process exits, no further cycle is
decided. -/
def runHealthCycles (count : Nat) :
    List HealthChecksPerformed → Nat × Nat × Option Nat
  | [] => (0, count, none)
  | c :: rest =>
    let step := scheduleIfNecessary count c
    match step.2 with
    | some code => (1, step.1, some code)
    | none =>
      let r := runHealthCycles step.1 rest
      (r.1 + 1, r.2.1, r.2.2)

/-- Auxiliary: on an all-failing run starting at counter `count ≤ 4`, the
process exits with status 1 exactly when the counter would pass 4, having
decided exactly `5 - count` cycles; otherwise all cycles are decided and
the counter accumulates. -/
lemma runHealthCycles_all_fail (cs : List HealthChecksPerformed) :
    ∀ count, count ≤ MAX_FAIL_ALLOWED →
      (∀ c ∈ cs, cycleHasFailure c = true) →
      runHealthCycles count cs =
        if MAX_FAIL_ALLOWED < count + cs.length then
          (MAX_FAIL_ALLOWED + 1 - count, MAX_FAIL_ALLOWED + 1, some 1)
        else
          (cs.length, count + cs.length, none) := by
  induction cs with
  | nil =>
    intro count hle _
    simp [runHealthCycles, Nat.not_lt.mpr hle]
  | cons c rest ih =>
    intro count hle hfail
    have hc : cycleHasFailure c = true := hfail c (List.mem_cons_self c rest)
    have hrest : ∀ x ∈ rest, cycleHasFailure x = true := by
      intro x hx; exact hfail x (List.mem_cons_of_mem c hx)
    by_cases htop : count = MAX_FAIL_ALLOWED
    · subst htop
      simp [runHealthCycles, scheduleIfNecessary, hc, MAX_FAIL_ALLOWED]
    · have hlt : count < MAX_FAIL_ALLOWED := lt_of_le_of_ne hle htop
      have hstep : scheduleIfNecessary count c = (count + 1, none) := by
        simp [scheduleIfNecessary, hc, Nat.not_lt.mpr hlt]
      have := ih (count + 1) hlt hrest
      simp only [runHealthCycles, hstep, this]
      by_cases hbig : MAX_FAIL_ALLOWED < count + (rest.length + 1)
      · have hbig' : MAX_FAIL_ALLOWED < count + 1 + rest.length := by omega
        have harith : MAX_FAIL_ALLOWED + 1 - (count + 1) + 1 =
            MAX_FAIL_ALLOWED + 1 - count := by omega
        simp only [List.length_cons, if_pos hbig, if_pos hbig', harith]
      · have hbig' : ¬ MAX_FAIL_ALLOWED < count + 1 + rest.length := by omega
        have harith : count + 1 + rest.length = count + (rest.length + 1) := by
          omega
        simp only [List.length_cons, if_neg hbig, if_neg hbig', harith]

/-- C1: after exactly 5 consecutive decided cycles each having at least one
failing probe (starting from a zero counter), the process terminates with
failure exit status 1, and it does not terminate on any earlier cycle of
that run; a fully successful decided cycle resets the consecutive-failure
counter to zero (and does not exit), so the threshold count restarts. -/
theorem performHealthCheck_consecutive_failure_threshold
    (cs : List HealthChecksPerformed)
    (hlen : cs.length = 5)
    (hfail : ∀ c ∈ cs, cycleHasFailure c = true) :
    runHealthCycles 0 cs = (5, 5, some 1)
    ∧ (∀ k, k ≤ 4 → (runHealthCycles 0 (cs.take k)).2.2 = none)
    ∧ (∀ count c, cycleHasFailure c = false →
        scheduleIfNecessary count c = (0, none)) := by
  refine ⟨?_, ?_, ?_⟩
  · have h := runHealthCycles_all_fail cs 0
      (by simp [MAX_FAIL_ALLOWED]) hfail
    rw [h, hlen]
    simp [MAX_FAIL_ALLOWED]
  · intro k hk
    have hfail' : ∀ c ∈ cs.take k, cycleHasFailure c = true := by
      intro c hc
      exact hfail c (List.take_subset k cs hc)
    have h := runHealthCycles_all_fail (cs.take k) 0
      (by simp [MAX_FAIL_ALLOWED]) hfail'
    rw [h]
    have hlen' : (cs.take k).length = k := by
      rw [List.length_take, hlen]
      omega
    rw [hlen']
    rw [if_neg (by simp only [MAX_FAIL_ALLOWED]; omega)]
  · intro count c hc
    simp [scheduleIfNecessary, hc, MAX_FAIL_ALLOWED]

theorem performHealthCheck_consecutive_failure_threshold_witness :
    runHealthCycles 0
      [⟨false, true⟩, ⟨true, false⟩, ⟨false, false⟩, ⟨false, true⟩,
       ⟨true, false⟩] = (5, 5, some 1) :=
  (performHealthCheck_consecutive_failure_threshold
    [⟨false, true⟩, ⟨true, false⟩, ⟨false, false⟩, ⟨false, true⟩,
     ⟨true, false⟩] (by decide) (by decide)).1

/-! ## Authenticator cache (`getAuthenticator`, lines 1002-1024)

`CaptainManager.authenticatorCache` is a static map from namespace to
`Authenticator`.  `getCaptainSalt` (lines 483-491) throws a plain JS error
when the salt has not been set yet.  The `Authenticator` constructor call
at line 1016 is modelled with an explicit `instanceId` drawn from a
construction counter so that reference identity is observable. -/

structure Authenticator where
  salt : String
  nameSpace : String
  instanceId : Nat
deriving DecidableEq, Repr

structure AuthState where
  authenticatorCache : List (String × Authenticator)
  captainSalt : String
  nextInstanceId : Nat
deriving DecidableEq, Repr

def lookupCache : List (String × Authenticator) → String → Option Authenticator
  | [], _ => none
  | (k, a) :: rest, ns => if k = ns then some a else lookupCache rest ns

/-- Accessor `getCaptainSalt` (lines 483-491): throws when `captainSalt` is falsy. -/
def getCaptainSalt (st : AuthState) : Except CapError String :=
  if st.captainSalt = "" then
    Except.error (CapError.jsError "Captain Salt is not set yet!!")
  else
    Except.ok st.captainSalt

/-- Static `getAuthenticator` (lines 1004-1024): empty namespace throws
NOT_AUTHORIZED; a cache miss reads the salt (which throws when unset) and
constructs and caches a new `Authenticator`; a cache hit returns the
cached instance unchanged. -/
def getAuthenticator (st : AuthState) (ns : String) :
    Except CapError (Authenticator × AuthState) :=
  if ns = "" then
    Except.error
      (CapError.apiError ApiStatus.statusErrorNotAuthorized "Empty namespace")
  else
    match lookupCache st.authenticatorCache ns with
    | some a => Except.ok (a, st)
    | none =>
      match getCaptainSalt st with
      | Except.error e => Except.error e
      | Except.ok salt =>
        let a : Authenticator := ⟨salt, ns, st.nextInstanceId⟩
        Except.ok
          (a, ⟨(ns, a) :: st.authenticatorCache, st.captainSalt,
               st.nextInstanceId + 1⟩)

/-- C2 counterexample: with the salt not yet available and an uncached
non-empty namespace, `getAuthenticator` does not "return nothing": it
throws the salt readiness error. -/
theorem getAuthenticator_saltMissing_errors_not_nothing :
    getAuthenticator ⟨[], "", 0⟩ "ns1" =
      Except.error (CapError.jsError "Captain Salt is not set yet!!") := by
  rfl

/-- C2 (amended): an empty namespace fails with the not-authorized error;
for an uncached non-empty namespace with the salt unavailable the call
throws the salt readiness error (it does not return an empty result); and
once a call succeeds, a second call with the same namespace returns the
identical cached instance with the state unchanged, the construction
counter having advanced exactly once. -/
theorem getAuthenticator_behavior (st : AuthState) (ns : String)
    (hns : ns ≠ "") :
    (getAuthenticator st "" =
      Except.error (CapError.apiError ApiStatus.statusErrorNotAuthorized
        "Empty namespace"))
    ∧ (st.captainSalt = "" → lookupCache st.authenticatorCache ns = none →
        getAuthenticator st ns =
          Except.error (CapError.jsError "Captain Salt is not set yet!!"))
    ∧ (∀ a st1, getAuthenticator st ns = Except.ok (a, st1) →
        getAuthenticator st1 ns = Except.ok (a, st1))
    ∧ (st.captainSalt ≠ "" → lookupCache st.authenticatorCache ns = none →
        getAuthenticator st ns = Except.ok
          (⟨st.captainSalt, ns, st.nextInstanceId⟩,
           ⟨(ns, ⟨st.captainSalt, ns, st.nextInstanceId⟩) ::
              st.authenticatorCache,
            st.captainSalt, st.nextInstanceId + 1⟩)) := by
  refine ⟨?_, ?_, ?_, ?_⟩
  · simp [getAuthenticator]
  · intro hsalt hmiss
    simp [getAuthenticator, hns, hmiss, getCaptainSalt, hsalt]
  · intro a st1 h
    rw [getAuthenticator, if_neg hns] at h
    cases hcache : lookupCache st.authenticatorCache ns with
    | some a0 =>
      rw [hcache] at h
      cases h
      rw [getAuthenticator, if_neg hns, hcache]
    | none =>
      rw [hcache] at h
      by_cases hsalt : st.captainSalt = ""
      · rw [getCaptainSalt, if_pos hsalt] at h
        cases h
      · rw [getCaptainSalt, if_neg hsalt] at h
        cases h
        rw [getAuthenticator, if_neg hns]
        simp [lookupCache]
  · intro hsalt hmiss
    simp [getAuthenticator, hns, hmiss, getCaptainSalt, hsalt]

theorem getAuthenticator_behavior_witness :
    getAuthenticator ⟨[], "some-salt", 0⟩ "tenant1" =
      Except.ok
        (⟨"some-salt", "tenant1", 0⟩,
         ⟨[("tenant1", ⟨"some-salt", "tenant1", 0⟩)], "some-salt", 1⟩) :=
  (getAuthenticator_behavior ⟨[], "some-salt", 0⟩ "tenant1"
    (by decide)).2.2.2 (by decide) (by rfl)

/-! ## Node join (`joinDockerNode`, lines 633-727)

After the remote command starts, the promise is settled by the stream's
signals: `close` resolves, `stderr` data rejects with
`'Error during setup: ' + data`, stdout data is only logged.  The
`hasExisted` flag (line 679) guards so that only the first of close/stderr
has any effect.  A stream run is modelled as a fold over the emitted
signals. -/

inductive StreamEvent where
  | close (code : String) (signal : String)
  | stdoutData (data : String)
  | stderrData (data : String)
deriving DecidableEq, Repr

structure JoinStreamState where
  hasExisted : Bool
  settled : Option (Except CapError Unit)
  connEnded : Bool
deriving Repr

/-- One stream signal (lines 681-715).  `close` always ends the
connection, then resolves unless already settled; `stderr` data rejects
unless already settled; stdout data has no effect on settlement. -/
def joinStreamStep (st : JoinStreamState) (ev : StreamEvent) :
    JoinStreamState :=
  match ev with
  | .close _ _ =>
    if st.hasExisted then { st with connEnded := true }
    else
      { hasExisted := true, settled := some (Except.ok ()), connEnded := true }
  | .stdoutData _ => st
  | .stderrData data =>
    if st.hasExisted then st
    else
      { st with
        hasExisted := true
        settled := some (Except.error (CapError.apiError
          ApiStatus.statusErrorGeneric ("Error during setup: " ++ data))) }

def joinStreamInit : JoinStreamState :=
  { hasExisted := false, settled := none, connEnded := false }

def joinStreamRun (events : List StreamEvent) : JoinStreamState :=
  events.foldl joinStreamStep joinStreamInit

/-- A signal that can settle the operation. -/
def settlingEvent : StreamEvent → Bool
  | .close _ _ => true
  | .stdoutData _ => false
  | .stderrData _ => true

lemma joinStreamStep_settled_of_hasExisted (st : JoinStreamState)
    (ev : StreamEvent) (h : st.hasExisted = true) :
    (joinStreamStep st ev).settled = st.settled
    ∧ (joinStreamStep st ev).hasExisted = true := by
  cases ev <;> simp [joinStreamStep, h]

lemma joinStream_foldl_settled_of_hasExisted (events : List StreamEvent) :
    ∀ st : JoinStreamState, st.hasExisted = true →
      (events.foldl joinStreamStep st).settled = st.settled := by
  induction events with
  | nil => intro st _; rfl
  | cons ev rest ih =>
    intro st h
    have hstep := joinStreamStep_settled_of_hasExisted st ev h
    simp only [List.foldl_cons]
    rw [ih _ hstep.2, hstep.1]

lemma joinStream_foldl_nonsettling (events : List StreamEvent)
    (h : ∀ e ∈ events, settlingEvent e = false) :
    events.foldl joinStreamStep joinStreamInit = joinStreamInit := by
  induction events with
  | nil => rfl
  | cons ev rest ih =>
    have hev : settlingEvent ev = false := h ev (List.mem_cons_self ev rest)
    have hrest : ∀ e ∈ rest, settlingEvent e = false := by
      intro e he; exact h e (List.mem_cons_of_mem ev he)
    cases ev with
    | close c s => simp [settlingEvent] at hev
    | stderrData d => simp [settlingEvent] at hev
    | stdoutData d =>
      simp only [List.foldl_cons, joinStreamStep]
      exact ih hrest

/-- C3 counterexample: when stderr emits `"boom"` first, the rejection
message is `"Error during setup: boom"`, not the exact stderr text
`"boom"`. -/
theorem joinDockerNode_stderr_message_not_exact :
    (joinStreamRun [.stderrData "boom"]).settled =
      some (Except.error (CapError.apiError ApiStatus.statusErrorGeneric
        "Error during setup: boom"))
    ∧ ("Error during setup: boom" ≠ "boom") := by
  refine ⟨rfl, by decide⟩

/-- C3 (amended): the first settling signal decides the outcome — a clean
close with no prior stderr data resolves, a first stderr emission of
`data` rejects with an error whose message is `"Error during setup: "`
followed by the exact captured stderr text — and all subsequent signals on
either path leave the settled outcome unchanged; with no settling signal
the operation stays pending. -/
theorem joinDockerNode_settles_once_first_signal_wins
    (pre : List StreamEvent)
    (hpre : ∀ e ∈ pre, settlingEvent e = false) :
    (∀ code signal post,
      (joinStreamRun (pre ++ .close code signal :: post)).settled =
        some (Except.ok ()))
    ∧ (∀ data post,
      (joinStreamRun (pre ++ .stderrData data :: post)).settled =
        some (Except.error (CapError.apiError ApiStatus.statusErrorGeneric
          ("Error during setup: " ++ data))))
    ∧ (joinStreamRun pre).settled = none := by
  refine ⟨?_, ?_, ?_⟩
  · intro code signal post
    unfold joinStreamRun
    rw [List.foldl_append, joinStream_foldl_nonsettling pre hpre]
    simp only [List.foldl_cons, joinStreamStep, joinStreamInit]
    exact joinStream_foldl_settled_of_hasExisted post _ rfl
  · intro data post
    unfold joinStreamRun
    rw [List.foldl_append, joinStream_foldl_nonsettling pre hpre]
    simp only [List.foldl_cons, joinStreamStep, joinStreamInit]
    exact joinStream_foldl_settled_of_hasExisted post _ rfl
  · unfold joinStreamRun
    rw [joinStream_foldl_nonsettling pre hpre]
    rfl

theorem joinDockerNode_settles_once_first_signal_wins_witness :
    (joinStreamRun [.stdoutData "log", .close "0" "",
        .stderrData "late error"]).settled = some (Except.ok ()) :=
  (joinDockerNode_settles_once_first_signal_wins [.stdoutData "log"]
    (by decide)).1 "0" "" [.stderrData "late error"]

/-! ## Configuration constants consumed from `CaptainConstants`

The `CaptainConstants` module is outside the shown source; its fields are
carried as an explicit record parameter. -/

structure Consts where
  captainConfirmationPath : String
  captainStaticFilesDir : String
  nginxDomainSpecificHtmlDir : String
  nginxPortNumber : Nat
  captainSubDomain : String
  isDebug : Bool
  preCheckForWildCard : Bool
  publishedNameOnDockerHub : String
deriving DecidableEq, Repr

/-! ## Domain verifier (`verifyCaptainOwnsDomainOrThrow`, lines 820-885)

The collaborator pre-check and the single HTTP poll are parameters: the
certbot pre-check outcome, and the `(error, body)` pair passed to the
`request` callback (line 863).  Effects are recorded in order. -/

inductive VerifyEffect where
  | domainValidCheck (domainName : String)
  | writeConfirmationFile (path : String) (content : String)
  | settleDelay (ms : Nat)
  | httpGet (url : String)
deriving DecidableEq, Repr

def isHttpGetEffect : VerifyEffect → Bool
  | .httpGet _ => true
  | _ => false

/-- Operation `verifyCaptainOwnsDomainOrThrow`: pre-check the domain (propagating
the collaborator's error unchanged), write the fresh token to the
confirmation file, wait 1000 ms, poll once, and compare.  The callback
test (line 864) is `error || !body || body !== randomUuid`. -/
def verifyCaptainOwnsDomainOrThrow (cc : Consts)
    (domainValid : Except CapError Unit) (randomUuid : String)
    (pollError : Option String) (pollBody : Option String)
    (domainName : String) (identifierSuffix : Option String) :
    List VerifyEffect × Except CapError Unit :=
  let confirmationPath :=
    cc.captainConfirmationPath ++ identifierSuffix.getD ""
  match domainValid with
  | Except.error e => ([.domainValidCheck domainName], Except.error e)
  | Except.ok _ =>
    let filePath := cc.captainStaticFilesDir ++
      cc.nginxDomainSpecificHtmlDir ++ "/" ++ domainName ++ confirmationPath
    let url := "http://" ++ domainName ++ ":" ++
      toString cc.nginxPortNumber ++ confirmationPath
    let effects : List VerifyEffect :=
      [.domainValidCheck domainName,
       .writeConfirmationFile filePath randomUuid,
       .settleDelay 1000, .httpGet url]
    match pollError, pollBody with
    | some _, _ =>
      (effects, Except.error (CapError.apiError ApiStatus.verificationFailed
        "Verification Failed."))
    | none, none =>
      (effects, Except.error (CapError.apiError ApiStatus.verificationFailed
        "Verification Failed."))
    | none, some body =>
      if body = "" ∨ body ≠ randomUuid then
        (effects, Except.error (CapError.apiError ApiStatus.verificationFailed
          "Verification Failed."))
      else
        (effects, Except.ok ())

/-- C4: verification succeeds exactly when the pre-check passed and the
single poll returned the fresh token byte for byte; any transport error,
missing or empty body, or mismatch yields the VerificationFailed error;
the pre-check's error is propagated unchanged; and at most one HTTP poll
is issued within the call (no retry). -/
theorem verifyCaptainOwnsDomain_token_match_iff (cc : Consts)
    (dv : Except CapError Unit) (randomUuid : String)
    (pollError : Option String) (pollBody : Option String)
    (domainName : String) (sfx : Option String)
    (htok : randomUuid ≠ "") :
    ((verifyCaptainOwnsDomainOrThrow cc dv randomUuid pollError pollBody
        domainName sfx).2 = Except.ok ()
      ↔ dv = Except.ok () ∧ pollError = none ∧ pollBody = some randomUuid)
    ∧ (dv = Except.ok () →
        ¬(pollError = none ∧ pollBody = some randomUuid) →
        (verifyCaptainOwnsDomainOrThrow cc dv randomUuid pollError pollBody
          domainName sfx).2 =
          Except.error (CapError.apiError ApiStatus.verificationFailed
            "Verification Failed."))
    ∧ (∀ e, dv = Except.error e →
        (verifyCaptainOwnsDomainOrThrow cc dv randomUuid pollError pollBody
          domainName sfx).2 = Except.error e)
    ∧ (((verifyCaptainOwnsDomainOrThrow cc dv randomUuid pollError pollBody
          domainName sfx).1.filter isHttpGetEffect).length ≤ 1) := by
  refine ⟨?_, ?_, ?_, ?_⟩
  · constructor
    · intro h
      cases dv with
      | error e => simp [verifyCaptainOwnsDomainOrThrow] at h
      | ok u =>
        cases u
        cases pollError with
        | some m => simp [verifyCaptainOwnsDomainOrThrow] at h
        | none =>
          cases pollBody with
          | none => simp [verifyCaptainOwnsDomainOrThrow] at h
          | some body =>
            by_cases hb : body = "" ∨ body ≠ randomUuid
            · simp [verifyCaptainOwnsDomainOrThrow, hb] at h
            · push_neg at hb
              exact ⟨rfl, rfl, by rw [hb.2]⟩
    · rintro ⟨h1, h2, h3⟩
      subst h1; subst h2; subst h3
      simp [verifyCaptainOwnsDomainOrThrow, htok]
  · intro hdv hmis
    subst hdv
    cases pollError with
    | some m => simp [verifyCaptainOwnsDomainOrThrow]
    | none =>
      cases pollBody with
      | none => simp [verifyCaptainOwnsDomainOrThrow]
      | some body =>
        have hbody : body ≠ randomUuid := by
          intro heq
          exact hmis ⟨rfl, by rw [heq]⟩
        simp [verifyCaptainOwnsDomainOrThrow, hbody]
  · intro e hdv
    subst hdv
    simp [verifyCaptainOwnsDomainOrThrow]
  · cases dv with
    | error e => simp [verifyCaptainOwnsDomainOrThrow, isHttpGetEffect]
    | ok u =>
      cases u
      cases pollError with
      | some m => simp [verifyCaptainOwnsDomainOrThrow, isHttpGetEffect]
      | none =>
        cases pollBody with
        | none => simp [verifyCaptainOwnsDomainOrThrow, isHttpGetEffect]
        | some body =>
          by_cases hb : body = "" ∨ body ≠ randomUuid <;>
            simp [verifyCaptainOwnsDomainOrThrow, hb, isHttpGetEffect]

theorem verifyCaptainOwnsDomain_token_match_iff_witness :
    (verifyCaptainOwnsDomainOrThrow
      ⟨"/.well-known/captain-identifier", "/captain/static",
       "/domain-specific", 80, "captain", false, false, "caprover/caprover"⟩
      (Except.ok ()) "fresh-token-123" none (some "fresh-token-123")
      "captain.example.com" (some "-healthcheck")).2 = Except.ok () :=
  ((verifyCaptainOwnsDomain_token_match_iff
    ⟨"/.well-known/captain-identifier", "/captain/static",
     "/domain-specific", 80, "captain", false, false, "caprover/caprover"⟩
    (Except.ok ()) "fresh-token-123" none (some "fresh-token-123")
    "captain.example.com" (some "-healthcheck")
    (by decide)).1).mpr ⟨rfl, rfl, rfl⟩

/-! ## SSL enablement (`enableSsl`, lines 747-774)

A strict promise chain; each collaborator outcome is a parameter and the
executed steps are recorded in order.  The chain short-circuits at the
first rejection, which the caller sees verbatim. -/

inductive SslStep where
  | registerWithCa
  | issueCertificate
  | persistEmail
  | persistRootSslFlag
  | regenerateProxyConfig
  | reloadProxy
deriving DecidableEq, Repr

structure EnableSslCollab where
  ensureRegistered : Except CapError Unit
  certbotEnableSsl : Except CapError Unit
  setUserEmailAddress : Except CapError Unit
  setHasRootSsl : Except CapError Unit
  rePopulateNginxConfigFile : Except CapError Unit
  sendReloadSignal : Except CapError Unit
deriving Repr

/-- Sequential execution of labelled fallible steps: stops at the first
error, recording every step that was started. -/
def runChain :
    List (SslStep × Except CapError Unit) → List SslStep × Except CapError Unit
  | [] => ([], Except.ok ())
  | (s, r) :: rest =>
    match r with
    | Except.error e => ([s], Except.error e)
    | Except.ok _ =>
      let t := runChain rest
      (s :: t.1, t.2)

def enableSslOrder : List SslStep :=
  [.registerWithCa, .issueCertificate, .persistEmail, .persistRootSslFlag,
   .regenerateProxyConfig, .reloadProxy]

/-- Operation `enableSsl` (lines 747-774): register email with the CA, issue the
certificate for `captain.<root>`, persist the email, persist the root-SSL
flag, regenerate the proxy configuration, send the reload signal. -/
def enableSsl (env : EnableSslCollab) : List SslStep × Except CapError Unit :=
  runChain
    [(.registerWithCa, env.ensureRegistered),
     (.issueCertificate, env.certbotEnableSsl),
     (.persistEmail, env.setUserEmailAddress),
     (.persistRootSslFlag, env.setHasRootSsl),
     (.regenerateProxyConfig, env.rePopulateNginxConfigFile),
     (.reloadProxy, env.sendReloadSignal)]

/-- C5: if CA registration or certificate issuance fails, the root-SSL
flag is not persisted and no proxy-configuration regeneration or reload is
attempted, and the caller sees that first error verbatim; moreover the
executed steps always form a prefix of the order register, issue, persist
email, persist flag, regenerate, reload. -/
theorem enableSsl_early_failure_no_flag_no_reload (env : EnableSslCollab) :
    (∀ e, (env.ensureRegistered = Except.error e ∨
        (env.ensureRegistered = Except.ok () ∧
         env.certbotEnableSsl = Except.error e)) →
      (enableSsl env).2 = Except.error e
      ∧ SslStep.persistRootSslFlag ∉ (enableSsl env).1
      ∧ SslStep.regenerateProxyConfig ∉ (enableSsl env).1
      ∧ SslStep.reloadProxy ∉ (enableSsl env).1)
    ∧ (∃ n, (enableSsl env).1 = enableSslOrder.take n) := by
  constructor
  · intro e he
    rcases he with h1 | ⟨h1, h2⟩
    · simp [enableSsl, runChain, h1]
    · simp [enableSsl, runChain, h1, h2]
  · obtain ⟨r1, r2, r3, r4, r5, r6⟩ := env
    cases r1 with
    | error e => exact ⟨1, rfl⟩
    | ok u =>
      cases u
      cases r2 with
      | error e => exact ⟨2, rfl⟩
      | ok u =>
        cases u
        cases r3 with
        | error e => exact ⟨3, rfl⟩
        | ok u =>
          cases u
          cases r4 with
          | error e => exact ⟨4, rfl⟩
          | ok u =>
            cases u
            cases r5 with
            | error e => exact ⟨5, rfl⟩
            | ok u =>
              cases u
              cases r6 with
              | error e => exact ⟨6, rfl⟩
              | ok u => cases u; exact ⟨6, rfl⟩

theorem enableSsl_early_failure_no_flag_no_reload_witness :
    (enableSsl ⟨Except.ok (), Except.error (CapError.jsError "issue failed"),
        Except.ok (), Except.ok (), Except.ok (), Except.ok ()⟩).2 =
      Except.error (CapError.jsError "issue failed")
    ∧ SslStep.persistRootSslFlag ∉
        (enableSsl ⟨Except.ok (),
          Except.error (CapError.jsError "issue failed"), Except.ok (),
          Except.ok (), Except.ok (), Except.ok ()⟩).1
    ∧ SslStep.regenerateProxyConfig ∉
        (enableSsl ⟨Except.ok (),
          Except.error (CapError.jsError "issue failed"), Except.ok (),
          Except.ok (), Except.ok (), Except.ok ()⟩).1
    ∧ SslStep.reloadProxy ∉
        (enableSsl ⟨Except.ok (),
          Except.error (CapError.jsError "issue failed"), Except.ok (),
          Except.ok (), Except.ok (), Except.ok ()⟩).1 :=
  (enableSsl_early_failure_no_flag_no_reload ⟨Except.ok (),
      Except.error (CapError.jsError "issue failed"), Except.ok (),
      Except.ok (), Except.ok (), Except.ok ()⟩).1
    (CapError.jsError "issue failed") (Or.inr ⟨rfl, rfl⟩)

/-! ## Root-domain change (`changeCaptainRootDomain`, lines 940-975)

The candidate domain is first checked to resolve to the node's default
reverse-proxy vhost via `verifyDomainResolvesToDefaultServerOnHost`
(lines 909-938), whose single HTTP GET compares the body with the load
balancer's public random key.  Then the SSL lock-in policy is applied,
the domain persisted, and the proxy reloaded
(`reloadLoadBalancer`, lines 733-741 = regenerate config + reload signal). -/

/-- The `verifyDomainResolvesToDefaultServerOnHost` callback test (line 920):
`error || !body || body !== getCaptainPublicRandomKey()`. -/
def verifyDomainResolvesToDefaultServerOnHost
    (captainPublicRandomKey : String)
    (error : Option String) (body : Option String) : Except CapError Unit :=
  match error, body with
  | some _, _ =>
    Except.error (CapError.apiError ApiStatus.verificationFailed
      "Verification Failed.")
  | none, none =>
    Except.error (CapError.apiError ApiStatus.verificationFailed
      "Verification Failed.")
  | none, some b =>
    if b = "" ∨ b ≠ captainPublicRandomKey then
      Except.error (CapError.apiError ApiStatus.verificationFailed
        "Verification Failed.")
    else
      Except.ok ()

/-- The URL built at lines 945-952: a random or the fixed captain
subdomain, depending on `preCheckForWildCard`, prefixed to the requested
domain, with the proxy port appended. -/
def changeRootDomainVerificationUrl (cc : Consts) (freshUuid : String)
    (requestedCustomDomain : String) : String :=
  (if cc.preCheckForWildCard then freshUuid else cc.captainSubDomain)
    ++ "." ++ requestedCustomDomain ++ ":" ++ toString cc.nginxPortNumber

inductive RootDomainEffect where
  | verifyDefaultVhost (url : String)
  | setCustomDomain (domain : String)
  | rePopulateNginxConfigFile
  | sendReloadSignal
deriving DecidableEq, Repr

/-- Operation `changeCaptainRootDomain`: verify the vhost first, then reject when
root SSL is enabled and the domain actually differs, otherwise persist
the new domain and reload the proxy. -/
def changeCaptainRootDomain (cc : Consts) (freshUuid : String)
    (captainPublicRandomKey : String)
    (verifyError : Option String) (verifyBody : Option String)
    (hasRootSsl : Bool) (rootDomain : String)
    (setCustomDomainResult : Except CapError Unit)
    (rePopulateResult : Except CapError Unit)
    (sendReloadResult : Except CapError Unit)
    (requestedCustomDomain : String) :
    List RootDomainEffect × Except CapError Unit :=
  let url := changeRootDomainVerificationUrl cc freshUuid
    requestedCustomDomain
  match verifyDomainResolvesToDefaultServerOnHost captainPublicRandomKey
      verifyError verifyBody with
  | Except.error e => ([.verifyDefaultVhost url], Except.error e)
  | Except.ok _ =>
    if hasRootSsl = true ∧ rootDomain ≠ requestedCustomDomain then
      ([.verifyDefaultVhost url],
       Except.error (CapError.apiError ApiStatus.statusErrorGeneric
         "SSL is enabled for root. Too late to change your mind!"))
    else
      match setCustomDomainResult with
      | Except.error e =>
        ([.verifyDefaultVhost url,
          .setCustomDomain requestedCustomDomain], Except.error e)
      | Except.ok _ =>
        match rePopulateResult with
        | Except.error e =>
          ([.verifyDefaultVhost url, .setCustomDomain requestedCustomDomain,
            .rePopulateNginxConfigFile], Except.error e)
        | Except.ok _ =>
          match sendReloadResult with
          | Except.error e =>
            ([.verifyDefaultVhost url,
              .setCustomDomain requestedCustomDomain,
              .rePopulateNginxConfigFile, .sendReloadSignal], Except.error e)
          | Except.ok _ =>
            ([.verifyDefaultVhost url,
              .setCustomDomain requestedCustomDomain,
              .rePopulateNginxConfigFile, .sendReloadSignal], Except.ok ())

/-- C6: the vhost verification runs first and its failure aborts the
change before anything is persisted; with verification passed, the change
is rejected with the lock-in policy error when root SSL is enabled and
the requested domain differs from the current root domain, and nothing is
persisted; otherwise the new domain is persisted and the proxy reloaded
(regenerate, then reload signal), in that order. -/
theorem changeCaptainRootDomain_policy (cc : Consts)
    (freshUuid key : String)
    (verifyError : Option String) (verifyBody : Option String)
    (hasRootSsl : Bool) (rootDomain : String)
    (setRes rePopRes reloadRes : Except CapError Unit) (d : String) :
    (∀ e, verifyDomainResolvesToDefaultServerOnHost key verifyError
        verifyBody = Except.error e →
      changeCaptainRootDomain cc freshUuid key verifyError verifyBody
          hasRootSsl rootDomain setRes rePopRes reloadRes d =
        ([.verifyDefaultVhost
            (changeRootDomainVerificationUrl cc freshUuid d)],
         Except.error e))
    ∧ (verifyDomainResolvesToDefaultServerOnHost key verifyError
        verifyBody = Except.ok () → hasRootSsl = true → rootDomain ≠ d →
      changeCaptainRootDomain cc freshUuid key verifyError verifyBody
          hasRootSsl rootDomain setRes rePopRes reloadRes d =
        ([.verifyDefaultVhost
            (changeRootDomainVerificationUrl cc freshUuid d)],
         Except.error (CapError.apiError ApiStatus.statusErrorGeneric
           "SSL is enabled for root. Too late to change your mind!")))
    ∧ (verifyDomainResolvesToDefaultServerOnHost key verifyError
        verifyBody = Except.ok () →
      (hasRootSsl = false ∨ rootDomain = d) →
      setRes = Except.ok () → rePopRes = Except.ok () →
      reloadRes = Except.ok () →
      changeCaptainRootDomain cc freshUuid key verifyError verifyBody
          hasRootSsl rootDomain setRes rePopRes reloadRes d =
        ([.verifyDefaultVhost
            (changeRootDomainVerificationUrl cc freshUuid d),
          .setCustomDomain d, .rePopulateNginxConfigFile,
          .sendReloadSignal], Except.ok ())) := by
  refine ⟨?_, ?_, ?_⟩
  · intro e hv
    simp [changeCaptainRootDomain, hv]
  · intro hv hssl hne
    simp [changeCaptainRootDomain, hv, hssl, hne]
  · intro hv hok h1 h2 h3
    have hcond : ¬(hasRootSsl = true ∧ rootDomain ≠ d) := by
      rcases hok with h | h
      · intro hc; rw [h] at hc; exact Bool.false_ne_true hc.1
      · intro hc; exact hc.2 h
    subst h1; subst h2; subst h3
    simp [changeCaptainRootDomain, hv, hcond]

theorem changeCaptainRootDomain_policy_witness :
    changeCaptainRootDomain
      ⟨"/.well-known/captain-identifier", "/captain/static",
       "/domain-specific", 80, "captain", false, false,
       "caprover/caprover"⟩
      "uuid-1" "public-random-key" none (some "public-random-key")
      true "old.example.com" (Except.ok ()) (Except.ok ()) (Except.ok ())
      "new.example.com" =
    ([.verifyDefaultVhost
        (changeRootDomainVerificationUrl
          ⟨"/.well-known/captain-identifier", "/captain/static",
           "/domain-specific", 80, "captain", false, false,
           "caprover/caprover"⟩ "uuid-1" "new.example.com")],
     Except.error (CapError.apiError ApiStatus.statusErrorGeneric
       "SSL is enabled for root. Too late to change your mind!")) :=
  (changeCaptainRootDomain_policy
    ⟨"/.well-known/captain-identifier", "/captain/static",
     "/domain-specific", 80, "captain", false, false, "caprover/caprover"⟩
    "uuid-1" "public-random-key" none (some "public-random-key")
    true "old.example.com" (Except.ok ()) (Except.ok ()) (Except.ok ())
    "new.example.com").2.1 rfl rfl (by decide)

/-! ## Bootstrap sequencer (`initialize`, lines 65-249)

The promise chain executes steps strictly in order.  Each step's outcome
is abstracted to: success, rejection with an error, or the deliberate
never-resolving halt of lines 160-168.  The `catch` handler (lines
242-248) logs the error and calls `process.exit(0)` after a 5000 ms grace
delay. -/

inductive StepOutcome where
  | ok
  | err (e : CapError)
  | haltForever
deriving DecidableEq, Repr

inductive InitOutcome where
  | ready
  | fatalExit (delayMs : Nat) (exitCode : Nat)
  | halted
deriving DecidableEq, Repr

/-- Run the bootstrap chain: returns how many steps were started and the
final outcome.  A rejection anywhere lands in the single catch handler:
grace delay 5000 ms, then exit status 0. -/
def runInitSteps : List StepOutcome → Nat × InitOutcome
  | [] => (0, .ready)
  | s :: rest =>
    match s with
    | .ok =>
      let r := runInitSteps rest
      (r.1 + 1, r.2)
    | .err _ => (1, .fatalExit 5000 0)
    | .haltForever => (1, .halted)

/-- C7: if the first failing bootstrap step is at index `i` (all earlier
steps succeeded), then exactly the steps up to and including it are
started — every remaining step is aborted and no step runs twice — and
the process logs, waits the 5000 ms grace period, and exits with the
non-error status 0. -/
theorem initialize_step_failure_fatal_exit (steps : List StepOutcome)
    (i : Nat) (e : CapError)
    (hstep : steps.get? i = some (.err e))
    (hbefore : ∀ j, j < i → steps.get? j = some .ok) :
    runInitSteps steps = (i + 1, .fatalExit 5000 0) := by
  induction steps generalizing i with
  | nil => simp at hstep
  | cons s rest ih =>
    cases i with
    | zero =>
      simp only [List.get?] at hstep
      cases hstep
      rfl
    | succ n =>
      have h0 : s = StepOutcome.ok := by
        have := hbefore 0 (Nat.succ_pos n)
        simpa using this
      subst h0
      have hreceq := ih n (by simpa using hstep)
        (fun j hj => by simpa using hbefore (j + 1) (Nat.succ_lt_succ hj))
      simp only [runInitSteps, hreceq]

theorem initialize_step_failure_fatal_exit_witness :
    runInitSteps [.ok, .ok, .err (CapError.jsError "node is not a manager")] =
      (3, .fatalExit 5000 0) :=
  initialize_step_failure_fatal_exit
    [.ok, .ok, .err (CapError.jsError "node is not a manager")] 2
    (CapError.jsError "node is not a manager") rfl
    (by
      intro j hj
      interval_cases j <;> rfl)

/-! ## Upstream version tags (`getCaptainImageTags`, lines 412-447)

`request(url, callback)` is issued unconditionally (line 419); the debug
check happens only inside the response callback (line 423).  The parsed
body is abstracted to the cases the callback distinguishes. -/

structure HubEntry where
  name : String
deriving DecidableEq, Repr

inductive HubResponse where
  | transportError (message : String)
  | emptyBody
  | bodyWithoutResults
  | bodyWithResults (results : List HubEntry)
deriving DecidableEq, Repr

inductive ExternalCall where
  | httpGet (url : String)
deriving DecidableEq, Repr

def dockerHubTagsUrl (cc : Consts) : String :=
  "https://hub.docker.com/v2/repositories/" ++ cc.publishedNameOnDockerHub
    ++ "/tags"

/-- Operation `getCaptainImageTags`: the HTTP GET to the hub is always issued; in
the callback, debug mode resolves the fixed tag list, otherwise a
transport error is re-thrown raw, an empty body or a body without a
`results` array rejects with the fixed message, and otherwise the `name`
fields of `results` are resolved. -/
def getCaptainImageTags (cc : Consts) (resp : HubResponse) :
    List ExternalCall × Except CapError (List String) :=
  let calls : List ExternalCall := [.httpGet (dockerHubTagsUrl cc)]
  if cc.isDebug then (calls, Except.ok ["v0.0.1"])
  else
    match resp with
    | .transportError m => (calls, Except.error (CapError.jsError m))
    | .emptyBody =>
      (calls, Except.error (CapError.jsError
        "Received empty body or no result for version list on docker hub."))
    | .bodyWithoutResults =>
      (calls, Except.error (CapError.jsError
        "Received empty body or no result for version list on docker hub."))
    | .bodyWithResults results =>
      (calls, Except.ok (results.map HubEntry.name))

/-- C8 counterexample: under debug configuration the HTTP GET to the
registry-hub API is still issued (the call list is not empty), so the
query is not bypassed at the network level. -/
theorem getCaptainImageTags_debug_still_issues_request :
    (getCaptainImageTags
      ⟨"/.well-known/captain-identifier", "/captain/static",
       "/domain-specific", 80, "captain", true, false,
       "caprover/caprover"⟩ (.transportError "no network")).1 =
      [ExternalCall.httpGet (dockerHubTagsUrl
        ⟨"/.well-known/captain-identifier", "/captain/static",
         "/domain-specific", 80, "captain", true, false,
         "caprover/caprover"⟩)]
    ∧ (getCaptainImageTags
      ⟨"/.well-known/captain-identifier", "/captain/static",
       "/domain-specific", 80, "captain", true, false,
       "caprover/caprover"⟩ (.transportError "no network")).1 ≠ [] :=
  ⟨rfl, by simp [getCaptainImageTags]⟩

/-- C8 (amended): the HTTP GET to the registry-hub API is issued on every
invocation; under debug configuration its outcome is ignored and the
single fixed tag list is returned once the callback fires; outside debug
configuration the call resolves with the `name` fields of the body's
`results` array, rejects with the raw transport error on a transport
failure, and rejects with the fixed message on an empty body or a missing
`results` array. -/
theorem getCaptainImageTags_behavior (cc : Consts) (resp : HubResponse) :
    ((getCaptainImageTags cc resp).1 =
      [ExternalCall.httpGet (dockerHubTagsUrl cc)])
    ∧ (cc.isDebug = true →
        (getCaptainImageTags cc resp).2 = Except.ok ["v0.0.1"])
    ∧ (cc.isDebug = false →
        (∀ rs, resp = .bodyWithResults rs →
          (getCaptainImageTags cc resp).2 =
            Except.ok (rs.map HubEntry.name))
        ∧ (∀ m, resp = .transportError m →
          (getCaptainImageTags cc resp).2 =
            Except.error (CapError.jsError m))
        ∧ ((resp = .emptyBody ∨ resp = .bodyWithoutResults) →
          (getCaptainImageTags cc resp).2 =
            Except.error (CapError.jsError
              "Received empty body or no result for version list on docker hub."))) := by
  by_cases hdbg : cc.isDebug = true
  · refine ⟨?_, fun _ => ?_, fun hfalse => ?_⟩
    · simp [getCaptainImageTags, hdbg]
    · simp [getCaptainImageTags, hdbg]
    · rw [hdbg] at hfalse
      exact absurd hfalse (by simp)
  · have hdbg' : cc.isDebug = false := by
      cases h : cc.isDebug
      · rfl
      · exact absurd h hdbg
    refine ⟨?_, fun htrue => absurd htrue hdbg, fun _ => ⟨?_, ?_, ?_⟩⟩
    · cases resp <;> simp [getCaptainImageTags, hdbg']
    · intro rs hr
      subst hr
      simp [getCaptainImageTags, hdbg']
    · intro m hr
      subst hr
      simp [getCaptainImageTags, hdbg']
    · intro hr
      rcases hr with hr | hr <;> subst hr <;>
        simp [getCaptainImageTags, hdbg']

theorem getCaptainImageTags_behavior_witness :
    (getCaptainImageTags
      ⟨"/.well-known/captain-identifier", "/captain/static",
       "/domain-specific", 80, "captain", true, false,
       "caprover/caprover"⟩ (.transportError "offline")).2 =
      Except.ok ["v0.0.1"] :=
  (getCaptainImageTags_behavior
    ⟨"/.well-known/captain-identifier", "/captain/static",
     "/domain-specific", 80, "captain", true, false,
     "caprover/caprover"⟩ (.transportError "offline")).2.1 rfl

/-! ## Singleton accessor (`CaptainManager.get`, lines 1026-1033)

The static `captainManagerInstance` slot is explicit state; the
constructor call at line 1030 is given an identity from a construction
counter so that reference identity is observable. -/

structure CaptainManagerInstance where
  instanceId : Nat
deriving DecidableEq, Repr

structure SingletonState where
  captainManagerInstance : Option CaptainManagerInstance
  constructionCount : Nat
deriving DecidableEq, Repr

/-- Accessor `CaptainManager.get`: construct on first call, cache, and return the
cached instance on every later call. -/
def get (st : SingletonState) : CaptainManagerInstance × SingletonState :=
  match st.captainManagerInstance with
  | some inst => (inst, st)
  | none =>
    let inst : CaptainManagerInstance := ⟨st.constructionCount⟩
    (inst, ⟨some inst, st.constructionCount + 1⟩)

/-- The state after any call to `get` is a fixed point: a further call
returns the same instance and changes nothing. -/
lemma get_fixpoint (st : SingletonState) : get (get st).2 = get st := by
  cases h : st.captainManagerInstance with
  | some inst => simp [get, h]
  | none => simp [get, h]

/-- The result of the `(n+1)`-th chained call to `get`. -/
def getIterated (st : SingletonState) : Nat → CaptainManagerInstance × SingletonState
  | 0 => get st
  | n + 1 => get (getIterated st n).2

lemma getIterated_eq_get (st : SingletonState) (n : Nat) :
    getIterated st n = get st := by
  induction n with
  | zero => rfl
  | succ m ih =>
    simp only [getIterated]
    rw [ih, get_fixpoint]

/-- C9: every call to the accessor after the first returns the instance
the first call returned, in the state the first call produced; starting
from the fresh state the construction counter advances exactly once, so
exactly one `CaptainManager` is ever constructed through this accessor. -/
theorem CaptainManager_get_singleton (st : SingletonState) (n k : Nat) :
    getIterated st n = get st
    ∧ (getIterated ⟨none, k⟩ n).1 = ⟨k⟩
    ∧ (getIterated ⟨none, k⟩ n).2 = ⟨some ⟨k⟩, k + 1⟩ := by
  refine ⟨getIterated_eq_get st n, ?_, ?_⟩
  · rw [getIterated_eq_get]
    rfl
  · rw [getIterated_eq_get]
    rfl

/-! ## Self-reset (`resetSelf`, lines 977-1000)

The returned promise's executor only arms a 2000 ms timer whose callback
issues the service-update request and deliberately discards its promise
(`promiseToIgnore`); neither `resolve` nor `reject` is ever invoked. -/

inductive ResetAction where
  | settleResolve
  | settleReject (e : CapError)
  | callUpdateService (serviceName : String)
deriving DecidableEq, Repr

def resetSelfTimerDelayMs : Nat := 2000

/-- Actions performed by the `setTimeout` callback (lines 981-998). -/
def resetSelfTimerActions (captainServiceName : String) : List ResetAction :=
  [.callUpdateService captainServiceName]

/-- Actions the executor performs synchronously before arming the timer:
none (it only logs). -/
def resetSelfImmediateActions : List ResetAction := []

def resetSelfAllActions (captainServiceName : String) : List ResetAction :=
  resetSelfImmediateActions ++ resetSelfTimerActions captainServiceName

def isSettlementAction : ResetAction → Bool
  | .settleResolve => true
  | .settleReject _ => true
  | .callUpdateService _ => false

def resetSelfSettles (captainServiceName : String) : Bool :=
  (resetSelfAllActions captainServiceName).any isSettlementAction

/-- C10: over the whole lifetime of `resetSelf` — including after the
delayed service-update request fires at 2000 ms — no settlement action
(neither resolve nor reject) is ever performed, so the returned promise
never settles and an awaiting caller suspends forever. -/
theorem resetSelf_never_settles (captainServiceName : String) :
    resetSelfSettles captainServiceName = false
    ∧ ((resetSelfAllActions captainServiceName).all
        (fun a => !isSettlementAction a)) = true
    ∧ resetSelfTimerDelayMs = 2000 :=
  ⟨rfl, rfl, rfl⟩

end CaptainManager
